import Mathlib

/-!
Shallow embedding of `dns_detector.py`, a DNS-spoofing detector that resolves
each domain through the system resolver and a DNS-over-HTTPS (DoH) resolver,
compares the two address sets, and reports discrepancies.

Modelling conventions:
* Python `set` values are `Finset`.
* The parsed JSON body returned by `response.json()` is modelled by the `Json`
  inductive below; `Json.obj` models an already-parsed Python `dict`, so its
  keys are unique and association-list lookup is dictionary lookup.
* Python `==` between a JSON value and an integer literal is `pyEqInt`;
  following Python semantics, `True == 1` and `False == 0` hold, while
  strings, `None`, lists and dicts never equal an integer.
* Elements of a Python `set` are modelled by `PyVal`, the hashable JSON
  values. Python treats `True`/`1` and `False`/`0` as the same set element
  (equal and equal hashes), so booleans are normalised to their integer
  value on insertion; this is observationally faithful for membership,
  set equality and set difference.
* Network and OS effects are modelled by explicit event types (`SysEvent`,
  `DohEvent`): each constructor is one observable outcome of the I/O the
  function performs (an exception raised by the library call, or a parsed
  response body).  The Python `except` handlers make both resolvers total
  functions of the event, which is how they are embedded.
* Each resolver returns its address set together with a diagnostic tag
  recording what, if anything, was printed to stderr.
-/

namespace DnsDetector

/-- JSON values as produced by Python `json.loads`: `None`, booleans, numbers
(restricted to integers, which covers every field the program inspects),
strings, lists and dicts.  `obj` models a parsed dict, so keys are unique. -/
inductive Json where
  | null : Json
  | bool : Bool → Json
  | num : Int → Json
  | str : String → Json
  | arr : List Json → Json
  | obj : List (String × Json) → Json

/-- A hashable Python value, i.e. one that can be an element of a Python
`set`.  Booleans are represented by their integer value, since Python sets
identify `True` with `1` and `False` with `0`. -/
inductive PyVal where
  | pnone : PyVal
  | int : Int → PyVal
  | str : String → PyVal
deriving DecidableEq

/-- The element a JSON value contributes to a Python `set`, or `none` when the
value is unhashable (a list or dict), in which case `set.add` raises
`TypeError`. -/
def Json.toPyVal : Json → Option PyVal
  | Json.null => some PyVal.pnone
  | Json.bool b => some (PyVal.int (if b then 1 else 0))
  | Json.num n => some (PyVal.int n)
  | Json.str s => some (PyVal.str s)
  | Json.arr _ => none
  | Json.obj _ => none

/-- Python `v == k` for a JSON value `v` and an integer literal `k`.
Booleans compare numerically (`True == 1`, `False == 0`); `None`, strings,
lists and dicts never equal an integer. -/
def pyEqInt : Json → Int → Bool
  | Json.num n, k => n == k
  | Json.bool b, k => (if b then (1 : Int) else 0) == k
  | _, _ => false

/-- One observable outcome of the `socket.getaddrinfo` call in
`resolve_system`: a `socket.gaierror`, any other exception, or a successful
return carrying the `item[4][0]` address string of each returned entry. -/
inductive SysEvent where
  | gaiError : SysEvent
  | otherError : SysEvent
  | ok : List String → SysEvent
deriving DecidableEq

/-- `resolve_system(domain)`: collects the returned addresses into a set; a
`socket.gaierror` or any other exception is caught at the boundary and yields
the empty set.  The `Bool` records whether a stderr diagnostic was printed. -/
def resolve_system : SysEvent → Finset String × Bool
  | SysEvent.gaiError => (∅, true)
  | SysEvent.otherError => (∅, true)
  | SysEvent.ok addrs => (addrs.foldl (fun s a => insert a s) ∅, false)

/-- What `resolve_doh` printed to stderr: nothing, the non-zero-`Status`
warning, or the diagnostic printed by one of the `except` handlers after an
exception was caught. -/
inductive DohDiag where
  | quiet : DohDiag
  | statusWarn : DohDiag
  | excCaught : DohDiag
deriving DecidableEq

/-- Processing of one record of the `Answer` list, mirroring
`if record.get(\x22type\x22) == 1 and \x22data\x22 in record: ips.add(record[\x22data\x22])`.
`Except.error` marks the states in which Python raises: `record.get` on a
non-dict (`AttributeError`), or `set.add` of an unhashable value
(`TypeError`); the payload is the set accumulated so far, which the outer
`except Exception` handler makes `resolve_doh` return. -/
def addRecord (acc : Finset PyVal) (r : Json) : Except (Finset PyVal) (Finset PyVal) :=
  match r with
  | Json.obj fs =>
    match fs.lookup "type" with
    | some t =>
      if pyEqInt t 1 then
        match fs.lookup "data" with
        | some d =>
          match d.toPyVal with
          | some v => Except.ok (insert v acc)
          | none => Except.error acc
        | none => Except.ok acc
      else Except.ok acc
    | none => Except.ok acc
  | _ => Except.error acc

/-- The `for record in data[\x22Answer\x22]` loop.  The `Bool` records whether an
exception was raised (and caught by the enclosing handler); in that case the
set accumulated before the exception is returned. -/
def answerFold : List Json → Finset PyVal → Finset PyVal × Bool
  | [], acc => (acc, false)
  | r :: rs, acc =>
    match addRecord acc r with
    | Except.ok a => answerFold rs a
    | Except.error a => (a, true)

/-- Interpretation of a successfully parsed DoH response body by
`resolve_doh`: the `Status == 0 and \x22Answer\x22 in data and isinstance(data[\x22Answer\x22], list)`
guard, the extraction loop, and the `elif data.get(\x22Status\x22) != 0` warning.
A non-dict body makes `data.get` raise `AttributeError`, which the generic
handler catches, returning the empty set. -/
def processBody (body : Json) : Finset PyVal × DohDiag :=
  match body with
  | Json.obj fs =>
    match fs.lookup "Status" with
    | some s =>
      if pyEqInt s 0 then
        match fs.lookup "Answer" with
        | some (Json.arr l) =>
          let r := answerFold l ∅
          (r.1, if r.2 then DohDiag.excCaught else DohDiag.quiet)
        | _ => (∅, DohDiag.quiet)
      else (∅, DohDiag.statusWarn)
    | none => (∅, DohDiag.statusWarn)
  | _ => (∅, DohDiag.excCaught)

/-- One observable outcome of the HTTPS request in `resolve_doh`: a
`requests.RequestException` (connection, timeout, TLS, or the `HTTPError`
raised by `raise_for_status` on a 4xx/5xx), a JSON decoding failure of the
body, any other exception raised before the body is examined, or a parsed
response body. -/
inductive DohEvent where
  | requestError : DohEvent
  | jsonError : DohEvent
  | otherError : DohEvent
  | response : Json → DohEvent

/-- `resolve_doh(domain)`: every exception of the request/parse phase is
caught and yields the empty set plus a stderr diagnostic; a parsed body is
interpreted by `processBody`. -/
def resolve_doh : DohEvent → Finset PyVal × DohDiag
  | DohEvent.requestError => (∅, DohDiag.excCaught)
  | DohEvent.jsonError => (∅, DohDiag.excCaught)
  | DohEvent.otherError => (∅, DohDiag.excCaught)
  | DohEvent.response body => processBody body

/-- `compare_ips(sys_ips, doh_ips)`: if either set is empty (falsy) the
comparison is skipped and the empty set returned; otherwise the Python set
difference `sys_ips - doh_ips`. -/
def compare_ips {α : Type} [DecidableEq α] (sys_ips doh_ips : Finset α) : Finset α :=
  if sys_ips = ∅ ∨ doh_ips = ∅ then ∅ else sys_ips \ doh_ips

/-- Outcome printed for one domain by the loop in `main`. -/
inductive DomainOutcome where
  | bothFailed : DomainOutcome
  | systemFailed : DomainOutcome
  | dohFailed : DomainOutcome
  | okMatch : DomainOutcome
  | discrepancy : Finset PyVal → DomainOutcome
deriving DecidableEq

/-- The system address set as it enters the comparison in `main`: a set of
Python strings, embedded as `PyVal` set elements. -/
def sysOf (e : SysEvent) : Finset PyVal :=
  (resolve_system e).1.image PyVal.str

/-- The DoH address set as it enters the comparison in `main`. -/
def dohOf (e : DohEvent) : Finset PyVal :=
  (resolve_doh e).1

/-- One iteration of the `for domain in args.domains` loop in `main`: the
chain of emptiness guards (each ending in `continue`), then `compare_ips`; a
truthy (non-empty) suspicious set clears `all_clear`. -/
def domain_step (all_clear : Bool) (sys_ips doh_ips : Finset PyVal) : Bool × DomainOutcome :=
  if sys_ips = ∅ ∧ doh_ips = ∅ then (all_clear, DomainOutcome.bothFailed)
  else if sys_ips = ∅ then (all_clear, DomainOutcome.systemFailed)
  else if doh_ips = ∅ then (all_clear, DomainOutcome.dohFailed)
  else
    let suspicious := compare_ips sys_ips doh_ips
    if suspicious.Nonempty then (false, DomainOutcome.discrepancy suspicious)
    else (all_clear, DomainOutcome.okMatch)

/-- The domain loop of `main`, threading `all_clear` and collecting each
domain's outcome in order. -/
def main_loop : Bool → List (Finset PyVal × Finset PyVal) → Bool × List DomainOutcome
  | flag, [] => (flag, [])
  | flag, p :: rest =>
    let st := domain_step flag p.1 p.2
    let r := main_loop st.1 rest
    (r.1, st.2 :: r.2)

/-- Whole-program behaviour of `main` on one run: each checked domain is
represented by the pair of resolver outcomes it observed.  The result is the
process exit code (`sys.exit(1)` when `all_clear` was cleared, the default
`0` otherwise) together with the per-domain outcomes in order. -/
def dns_main (events : List (SysEvent × DohEvent)) : Nat × List DomainOutcome :=
  let r := main_loop true (events.map fun p => (sysOf p.1, dohOf p.2))
  (if r.1 then 0 else 1, r.2)

/-- Splits a character list on the dot character. -/
def splitDots : List Char → List (List Char)
  | [] => [[]]
  | c :: cs =>
    let r := splitDots cs
    if c = '.' then [] :: r
    else
      match r with
      | [] => [[c]]
      | g :: gs => (c :: g) :: gs

/-- Decimal value of a digit string. -/
def digitsVal (p : List Char) : Nat :=
  p.foldl (fun a c => a * 10 + (c.toNat - 48)) 0

/-- A dotted-quad IPv4 literal (formalising the spec's data-model wording):
four non-empty decimal components separated by dots, each in the range 0 to
255. -/
def isDottedQuad (s : String) : Bool :=
  let parts := splitDots s.data
  parts.length == 4 && parts.all (fun p =>
    !p.isEmpty && p.all Char.isDigit && digitsVal p ≤ 255)

/-- The guard condition of the `Status` claim as a predicate on the parsed
body: the top-level `Status` field is absent (including a non-dict body,
where there is no field at all) or its value does not Python-equal `0`. -/
def statusNotZero (body : Json) : Bool :=
  match body with
  | Json.obj fs =>
    match fs.lookup "Status" with
    | some s => !(pyEqInt s 0)
    | none => true
  | _ => true

/-- A well-formed answer record, matching the shape the network interface
documents: a JSON object whose `type` field (when present) is an integer and
whose `data` field (when present) is hashable. -/
def wellFormedRecord (r : Json) : Bool :=
  match r with
  | Json.obj fs =>
    (match fs.lookup "type" with
     | some (Json.num _) => true
     | some _ => false
     | none => true) &&
    (match fs.lookup "data" with
     | some d => d.toPyVal.isSome
     | none => true)
  | _ => false

/-- A record whose processing by the answer loop raises no exception: an
object which, whenever it is selected for extraction (its `type`
Python-equals 1 and a `data` field is present), carries a hashable `data`
value. -/
def recordSafe (r : Json) : Bool :=
  match r with
  | Json.obj fs =>
    match fs.lookup "type" with
    | some t =>
      if pyEqInt t 1 then
        match fs.lookup "data" with
        | some d => d.toPyVal.isSome
        | none => true
      else true
    | none => true
  | _ => false

/-- The set element contributed by one answer record, when there is one: the
record is an object whose `type` Python-equals 1, it carries a `data` field,
and the data value is hashable. -/
def insData (r : Json) : Option PyVal :=
  match r with
  | Json.obj fs =>
    match fs.lookup "type" with
    | some t =>
      if pyEqInt t 1 then
        match fs.lookup "data" with
        | some d => d.toPyVal
        | none => none
      else none
    | none => none
  | _ => none

/-- Exception-free functional form of one step of the answer loop. -/
def addOk (acc : Finset PyVal) (r : Json) : Finset PyVal :=
  match insData r with
  | some v => insert v acc
  | none => acc

/-- Fixture: a `Status = 0` body whose `Answer` holds one A record. -/
def fixtureA : Json :=
  Json.obj [("Status", Json.num 0),
    ("Answer", Json.arr [Json.obj [("type", Json.num 1), ("data", Json.str "203.0.113.5")]])]

/-- Fixture: a `Status = 0` body mixing a CNAME record, an A record, and a
record with no `data` field. -/
def fixtureCname : Json :=
  Json.obj [("Status", Json.num 0),
    ("Answer", Json.arr [
      Json.obj [("type", Json.num 5), ("data", Json.str "alias.example.net.")],
      Json.obj [("type", Json.num 1), ("data", Json.str "93.184.216.34")],
      Json.obj [("type", Json.num 1)]])]

/-- Fixture: a `Status = 0` body whose `Answer` holds a good A record followed
by a non-dict entry, on which `record.get` raises `AttributeError`. -/
def fixtureMixed : Json :=
  Json.obj [("Status", Json.num 0),
    ("Answer", Json.arr [
      Json.obj [("type", Json.num 1), ("data", Json.str "1.2.3.4")],
      Json.str "junk"])]

/-- Fixture: an NXDOMAIN body (`Status = 3`) that nevertheless carries a
well-formed A record in `Answer`. -/
def fixtureNx : Json :=
  Json.obj [("Status", Json.num 3),
    ("Answer", Json.arr [Json.obj [("type", Json.num 1), ("data", Json.str "9.9.9.9")]])]

/-- Fixture: a `Status = 0` body whose A record carries a `data` value that is
not an IPv4 dotted-quad literal. -/
def fixtureHello : Json :=
  Json.obj [("Status", Json.num 0),
    ("Answer", Json.arr [Json.obj [("type", Json.num 1), ("data", Json.str "hello")]])]

/-! ### Helper lemmas about the answer loop -/

lemma addRecord_cases (acc : Finset PyVal) (r : Json) :
    addRecord acc r = Except.ok (addOk acc r) ∨
      (addRecord acc r = Except.error acc ∧ insData r = none ∧ recordSafe r = false) := by
  cases r with
  | obj fs =>
    cases htype : fs.lookup "type" with
    | none => left; simp [addRecord, addOk, insData, htype]
    | some t =>
      cases h1 : pyEqInt t 1 with
      | false => left; simp [addRecord, addOk, insData, htype, h1]
      | true =>
        cases hdata : fs.lookup "data" with
        | none => left; simp [addRecord, addOk, insData, htype, h1, hdata]
        | some d =>
          cases hv : d.toPyVal with
          | none =>
            right
            refine ⟨?_, ?_, ?_⟩ <;>
              simp [addRecord, insData, recordSafe, htype, h1, hdata, hv]
          | some v => left; simp [addRecord, addOk, insData, htype, h1, hdata, hv]
  | null => right; exact ⟨rfl, rfl, rfl⟩
  | bool b => right; exact ⟨rfl, rfl, rfl⟩
  | num n => right; exact ⟨rfl, rfl, rfl⟩
  | str s => right; exact ⟨rfl, rfl, rfl⟩
  | arr l => right; exact ⟨rfl, rfl, rfl⟩

lemma addRecord_of_safe (acc : Finset PyVal) (r : Json) (h : recordSafe r = true) :
    addRecord acc r = Except.ok (addOk acc r) := by
  rcases addRecord_cases acc r with h1 | ⟨_, _, h3⟩
  · exact h1
  · rw [h] at h3; cases h3

lemma addRecord_of_insData (acc : Finset PyVal) (r : Json) (v : PyVal)
    (h : insData r = some v) :
    addRecord acc r = Except.ok (insert v acc) := by
  rcases addRecord_cases acc r with h1 | ⟨_, h2, _⟩
  · rw [h1]; unfold addOk; rw [h]
  · rw [h] at h2; cases h2

lemma answerFold_of_safe (l : List Json) (acc : Finset PyVal)
    (h : ∀ r ∈ l, recordSafe r = true) :
    answerFold l acc = (l.foldl addOk acc, false) := by
  induction l generalizing acc with
  | nil => rfl
  | cons r rs ih =>
    have hr : recordSafe r = true := h r (List.mem_cons_self r rs)
    rw [answerFold, addRecord_of_safe acc r hr, List.foldl_cons]
    exact ih _ fun x hx => h x (List.mem_cons_of_mem r hx)

lemma mem_foldl_addOk (l : List Json) (acc : Finset PyVal) (x : PyVal) :
    x ∈ l.foldl addOk acc ↔ x ∈ acc ∨ ∃ r ∈ l, insData r = some x := by
  induction l generalizing acc with
  | nil => simp
  | cons r rs ih =>
    rw [List.foldl_cons, ih]
    cases h : insData r with
    | none =>
      simp only [addOk, h, List.mem_cons]
      constructor
      · rintro (hx | ⟨r2, hr2, h2⟩)
        · exact Or.inl hx
        · exact Or.inr ⟨r2, Or.inr hr2, h2⟩
      · rintro (hx | ⟨r2, hr2 | hr2, h2⟩)
        · exact Or.inl hx
        · rw [hr2, h] at h2; cases h2
        · exact Or.inr ⟨r2, hr2, h2⟩
    | some v =>
      simp only [addOk, h, Finset.mem_insert, List.mem_cons]
      constructor
      · rintro ((hx | hx) | ⟨r2, hr2, h2⟩)
        · exact Or.inr ⟨r, Or.inl rfl, by rw [h, hx]⟩
        · exact Or.inl hx
        · exact Or.inr ⟨r2, Or.inr hr2, h2⟩
      · rintro (hx | ⟨r2, hr2 | hr2, h2⟩)
        · exact Or.inl (Or.inr hx)
        · rw [hr2, h] at h2
          exact Or.inl (Or.inl (Option.some.inj h2).symm)
        · exact Or.inr ⟨r2, hr2, h2⟩

lemma mem_answerFold (l : List Json) (acc : Finset PyVal) (x : PyVal)
    (h : x ∈ (answerFold l acc).1) :
    x ∈ acc ∨ ∃ r ∈ l, insData r = some x := by
  induction l generalizing acc with
  | nil => exact Or.inl h
  | cons r rs ih =>
    rcases addRecord_cases acc r with hok | ⟨herr, hnone, _⟩
    · rw [answerFold, hok] at h
      rcases ih _ h with hacc | ⟨r2, hr2, h2⟩
      · revert hacc
        unfold addOk
        cases hins : insData r with
        | none => exact Or.inl
        | some v =>
          intro hacc
          rcases Finset.mem_insert.mp hacc with hx | hx
          · exact Or.inr ⟨r, List.mem_cons_self r rs, by rw [hins, hx]⟩
          · exact Or.inl hx
      · exact Or.inr ⟨r2, List.mem_cons_of_mem r hr2, h2⟩
    · rw [answerFold, herr] at h
      exact Or.inl h

lemma addOk_comm (acc : Finset PyVal) (r1 r2 : Json) :
    addOk (addOk acc r1) r2 = addOk (addOk acc r2) r1 := by
  unfold addOk
  cases insData r1 <;> cases insData r2 <;> simp [Finset.Insert.comm]

lemma foldl_addOk_perm {l1 l2 : List Json} (h : l1.Perm l2) :
    ∀ acc : Finset PyVal, l1.foldl addOk acc = l2.foldl addOk acc := by
  induction h with
  | nil => intro acc; rfl
  | cons x h ih => intro acc; rw [List.foldl_cons, List.foldl_cons, ih]
  | swap x y l => intro acc; rw [List.foldl_cons, List.foldl_cons, List.foldl_cons,
      List.foldl_cons, addOk_comm]
  | trans h1 h2 ih1 ih2 => intro acc; rw [ih1, ih2]

lemma recordSafe_of_wellFormed (r : Json) (h : wellFormedRecord r = true) :
    recordSafe r = true := by
  cases r with
  | obj fs =>
    simp only [wellFormedRecord] at h
    simp only [recordSafe]
    cases htype : fs.lookup "type" with
    | none => rfl
    | some t =>
      rw [htype] at h
      cases hdata : fs.lookup "data" with
      | none => cases pyEqInt t 1 <;> simp
      | some d =>
        rw [hdata] at h
        cases pyEqInt t 1 <;> simp_all
  | null => cases h
  | bool b => cases h
  | num n => cases h
  | str s => cases h
  | arr l => cases h

lemma insData_of_wellFormed (r : Json) (h : wellFormedRecord r = true) (x : PyVal) :
    insData r = some x ↔
      ∃ rf, r = Json.obj rf ∧ rf.lookup "type" = some (Json.num 1) ∧
        ∃ d, rf.lookup "data" = some d ∧ d.toPyVal = some x := by
  cases r with
  | obj fs =>
    simp only [wellFormedRecord] at h
    constructor
    · intro hins
      simp only [insData] at hins
      cases htype : fs.lookup "type" with
      | none => simp [htype] at hins
      | some t =>
        rw [htype] at h hins
        cases t with
        | num n =>
          simp only at hins
          by_cases h1 : pyEqInt (Json.num n) 1 = true
          · have hn : n = 1 := by
              simp only [pyEqInt, beq_iff_eq] at h1
              exact h1
            subst hn
            rw [if_pos h1] at hins
            cases hdata : fs.lookup "data" with
            | none => simp [hdata] at hins
            | some d =>
              rw [hdata] at hins
              exact ⟨fs, rfl, htype, d, hdata, hins⟩
          · rw [if_neg h1] at hins
            cases hins
        | null => simp at h
        | bool b => simp at h
        | str s => simp at h
        | arr l2 => simp at h
        | obj l2 => simp at h
    · rintro ⟨rf, hrf, htype, d, hdata, hv⟩
      have hfs : rf = fs := by
        injection hrf with h2
        exact h2.symm
      subst hfs
      simp [insData, htype, hdata, hv, pyEqInt]
  | null => cases h
  | bool b => cases h
  | num n => cases h
  | str s => cases h
  | arr l => cases h

lemma mem_foldl_insert (l : List String) (init : Finset String) (x : String) :
    x ∈ l.foldl (fun s a => insert a s) init ↔ x ∈ init ∨ x ∈ l := by
  induction l generalizing init with
  | nil => simp
  | cons a rest ih =>
    rw [List.foldl_cons, ih]
    simp only [Finset.mem_insert, List.mem_cons]
    tauto

/-! ### Helper lemmas about the orchestration loop -/

lemma domain_step_snd (flag : Bool) (s d : Finset PyVal) :
    (domain_step flag s d).2 = (domain_step true s d).2 := by
  unfold domain_step
  by_cases h1 : s = ∅ ∧ d = ∅
  · simp [h1]
  · by_cases h2 : s = ∅
    · have h3 : d ≠ ∅ := fun hd => h1 ⟨h2, hd⟩
      simp [h1, h2, h3]
    · by_cases h3 : d = ∅
      · simp [h1, h2, h3]
      · by_cases h4 : (compare_ips s d).Nonempty
        · simp [h1, h2, h3, h4]
        · simp [h1, h2, h3, h4]

lemma domain_step_fst (flag : Bool) (s d : Finset PyVal) :
    (domain_step flag s d).1 = false ↔
      flag = false ∨ (s ≠ ∅ ∧ d ≠ ∅ ∧ compare_ips s d ≠ ∅) := by
  unfold domain_step
  by_cases h1 : s = ∅ ∧ d = ∅
  · simp [h1, h1.1]
  · by_cases h2 : s = ∅
    · have h3 : d ≠ ∅ := fun hd => h1 ⟨h2, hd⟩
      simp [h1, h2, h3]
    · by_cases h3 : d = ∅
      · simp [h1, h2, h3]
      · by_cases h4 : (compare_ips s d).Nonempty
        · have h5 : compare_ips s d ≠ ∅ := Finset.nonempty_iff_ne_empty.mp h4
          simp [h1, h2, h3, h4, h5]
        · have h5 : compare_ips s d = ∅ := by
            rw [Finset.nonempty_iff_ne_empty, not_not] at h4
            exact h4
          simp [h1, h2, h3, h4, h5]

lemma main_loop_snd (flag : Bool) (l : List (Finset PyVal × Finset PyVal)) :
    (main_loop flag l).2 = l.map fun p => (domain_step true p.1 p.2).2 := by
  induction l generalizing flag with
  | nil => rfl
  | cons p rest ih =>
    rw [main_loop, List.map_cons]
    simp only
    rw [ih, domain_step_snd]

lemma main_loop_fst (flag : Bool) (l : List (Finset PyVal × Finset PyVal)) :
    (main_loop flag l).1 = false ↔
      flag = false ∨ ∃ p ∈ l, p.1 ≠ ∅ ∧ p.2 ≠ ∅ ∧ compare_ips p.1 p.2 ≠ ∅ := by
  induction l generalizing flag with
  | nil => simp [main_loop]
  | cons p rest ih =>
    rw [main_loop]
    simp only
    rw [ih, domain_step_fst]
    simp only [List.mem_cons]
    constructor
    · rintro ((hf | hp) | ⟨q, hq, h⟩)
      · exact Or.inl hf
      · exact Or.inr ⟨p, Or.inl rfl, hp⟩
      · exact Or.inr ⟨q, Or.inr hq, h⟩
    · rintro (hf | ⟨q, hq | hq, h⟩)
      · exact Or.inl (Or.inl hf)
      · exact Or.inl (Or.inr (hq ▸ h))
      · exact Or.inr ⟨q, hq, h⟩

/-! ### Claim theorems -/

/-- C1: for all address sets `A` (system) and `B` (DoH), if `A` or `B` is
empty then `compare_ips A B` is the empty set; otherwise `compare_ips A B`
is exactly the set difference `A − B`: it contains every address of `A` not
in `B` and no other address. -/
theorem compare_ips_policy (A B : Finset String) :
    ((A = ∅ ∨ B = ∅) → compare_ips A B = ∅) ∧
    (A ≠ ∅ → B ≠ ∅ → ∀ x, x ∈ compare_ips A B ↔ x ∈ A ∧ x ∉ B) := by
  constructor
  · intro h
    unfold compare_ips
    rw [if_pos h]
  · intro hA hB x
    unfold compare_ips
    rw [if_neg (by tauto)]
    exact Finset.mem_sdiff

/-- Witness for C1 at concrete inputs: the empty guard on `B = ∅`, and the
membership characterisation for two non-empty singletons. -/
theorem compare_ips_policy_witness :
    compare_ips ({"1.2.3.4"} : Finset String) ∅ = ∅ ∧
    ("1.2.3.4" ∈ compare_ips ({"1.2.3.4"} : Finset String) {"5.6.7.8"} ↔
      "1.2.3.4" ∈ ({"1.2.3.4"} : Finset String) ∧
        "1.2.3.4" ∉ ({"5.6.7.8"} : Finset String)) :=
  ⟨(compare_ips_policy {"1.2.3.4"} ∅).1 (Or.inr rfl),
   (compare_ips_policy {"1.2.3.4"} {"5.6.7.8"}).2 (by decide) (by decide) "1.2.3.4"⟩

/-- C6 counterexample: `compare_ips` is not plain set subtraction.  At
`A = {"10.0.0.1"}` and `B = ∅`, the code returns the empty set while
`A − B = A` is non-empty, because the empty-input guard fires first. -/
theorem compare_ips_not_plain_sdiff :
    compare_ips ({"10.0.0.1"} : Finset String) ∅ ≠
      ({"10.0.0.1"} : Finset String) \ ∅ := by
  decide

/-- C6 amended: when both inputs are non-empty, `compare_ips A B = A − B`;
moreover `compare_ips A B ⊆ A` for all `A`, `B`, and `compare_ips A A = ∅`
for all `A`. -/
theorem compare_ips_sdiff_amended (A B : Finset String) :
    (A ≠ ∅ → B ≠ ∅ → compare_ips A B = A \ B) ∧
    compare_ips A B ⊆ A ∧
    compare_ips A A = ∅ := by
  refine ⟨?_, ?_, ?_⟩
  · intro hA hB
    unfold compare_ips
    rw [if_neg (by tauto)]
  · unfold compare_ips
    by_cases h : A = ∅ ∨ B = ∅
    · rw [if_pos h]
      exact Finset.empty_subset A
    · rw [if_neg h]
      exact Finset.sdiff_subset
  · unfold compare_ips
    by_cases h : A = ∅ ∨ A = ∅
    · rw [if_pos h]
    · rw [if_neg h]
      exact Finset.sdiff_self A

/-- Witness for C6 amended at concrete non-empty inputs. -/
theorem compare_ips_sdiff_amended_witness :
    compare_ips ({"10.0.0.1"} : Finset String) ({"203.0.113.5"} : Finset String) =
      ({"10.0.0.1"} : Finset String) \ ({"203.0.113.5"} : Finset String) :=
  (compare_ips_sdiff_amended {"10.0.0.1"} {"203.0.113.5"}).1 (by decide) (by decide)

/-- C2: the per-domain outcome follows exactly the precedence of the guards
in `main` — both sets empty is inconclusive (`bothFailed`), else an empty
system set is `systemFailed`, else an empty DoH set is `dohFailed`, else
`compare_ips` runs and a non-empty suspicious set marks a discrepancy and
clears the overall `all_clear` flag while an empty one marks the domain OK.
The final conjunct shows each domain of a run reaches its outcome in one
pass: the reported outcome list is a one-to-one map over the domains, each
outcome depending only on that domain's own resolver results. -/
theorem domain_classification (flag : Bool) (s d : Finset PyVal) :
    (s = ∅ → d = ∅ → domain_step flag s d = (flag, DomainOutcome.bothFailed)) ∧
    (s = ∅ → d ≠ ∅ → domain_step flag s d = (flag, DomainOutcome.systemFailed)) ∧
    (s ≠ ∅ → d = ∅ → domain_step flag s d = (flag, DomainOutcome.dohFailed)) ∧
    (s ≠ ∅ → d ≠ ∅ → compare_ips s d ≠ ∅ →
      domain_step flag s d = (false, DomainOutcome.discrepancy (compare_ips s d))) ∧
    (s ≠ ∅ → d ≠ ∅ → compare_ips s d = ∅ →
      domain_step flag s d = (flag, DomainOutcome.okMatch)) ∧
    (∀ events : List (SysEvent × DohEvent),
      (dns_main events).2 =
        events.map fun p => (domain_step true (sysOf p.1) (dohOf p.2)).2) := by
  refine ⟨?_, ?_, ?_, ?_, ?_, ?_⟩
  · intro h1 h2
    unfold domain_step
    rw [if_pos ⟨h1, h2⟩]
  · intro h1 h2
    unfold domain_step
    rw [if_neg (by tauto), if_pos h1]
  · intro h1 h2
    unfold domain_step
    rw [if_neg (by tauto), if_neg h1, if_pos h2]
  · intro h1 h2 h3
    unfold domain_step
    rw [if_neg (by tauto), if_neg h1, if_neg h2]
    simp only
    rw [if_pos (Finset.nonempty_iff_ne_empty.mpr h3)]
  · intro h1 h2 h3
    unfold domain_step
    rw [if_neg (by tauto), if_neg h1, if_neg h2]
    simp only
    rw [if_neg (by rw [Finset.nonempty_iff_ne_empty, not_not]; exact h3)]
  · intro events
    unfold dns_main
    simp only
    rw [main_loop_snd, List.map_map]
    rfl

/-- Witness for C2: a concrete domain where both sets are non-empty and
disagree lands in the discrepancy branch and clears the flag. -/
theorem domain_classification_witness :
    domain_step true {PyVal.str "10.0.0.1"} {PyVal.str "203.0.113.5"} =
      (false, DomainOutcome.discrepancy
        (compare_ips {PyVal.str "10.0.0.1"} {PyVal.str "203.0.113.5"})) :=
  (domain_classification true {PyVal.str "10.0.0.1"} {PyVal.str "203.0.113.5"}).2.2.2.1
    (by decide) (by decide) (by decide)

/-- C3: the exit code of a run is `1` exactly when some checked domain has
both resolver sets non-empty and `compare_ips` on them is non-empty; in
every other case (including any combination of resolver failures) it is `0`.
Command-line parsing is outside the modelled core. -/
theorem exit_code_iff (events : List (SysEvent × DohEvent)) :
    ((dns_main events).1 = 1 ↔
      ∃ p ∈ events, sysOf p.1 ≠ ∅ ∧ dohOf p.2 ≠ ∅ ∧
        compare_ips (sysOf p.1) (dohOf p.2) ≠ ∅) ∧
    ((dns_main events).1 = 0 ↔
      ¬ ∃ p ∈ events, sysOf p.1 ≠ ∅ ∧ dohOf p.2 ≠ ∅ ∧
        compare_ips (sysOf p.1) (dohOf p.2) ≠ ∅) := by
  have hkey : (main_loop true (events.map fun p => (sysOf p.1, dohOf p.2))).1 = false ↔
      ∃ p ∈ events, sysOf p.1 ≠ ∅ ∧ dohOf p.2 ≠ ∅ ∧
        compare_ips (sysOf p.1) (dohOf p.2) ≠ ∅ := by
    rw [main_loop_fst]
    constructor
    · rintro (hf | ⟨q, hq, h⟩)
      · cases hf
      · rw [List.mem_map] at hq
        obtain ⟨p, hp, rfl⟩ := hq
        exact ⟨p, hp, h⟩
    · rintro ⟨p, hp, h⟩
      exact Or.inr ⟨(sysOf p.1, dohOf p.2), List.mem_map.mpr ⟨p, hp, rfl⟩, h⟩
  unfold dns_main
  simp only
  cases hb : (main_loop true (events.map fun p => (sysOf p.1, dohOf p.2))).1 with
  | false =>
    have hP := hkey.mp hb
    constructor
    · exact iff_of_true (by simp) hP
    · exact iff_of_false (by simp) (not_not_intro hP)
  | true =>
    have hnP : ¬ ∃ p ∈ events, sysOf p.1 ≠ ∅ ∧ dohOf p.2 ≠ ∅ ∧
        compare_ips (sysOf p.1) (dohOf p.2) ≠ ∅ := by
      intro hP
      have hfalse := hkey.mpr hP
      rw [hb] at hfalse
      cases hfalse
    constructor
    · exact iff_of_false (by simp) hnP
    · exact iff_of_true (by simp) hnP

/-- Witness for C3: a run with one spoofed domain (system says 10.0.0.1,
DoH says 203.0.113.5) exits with code 1. -/
theorem exit_code_iff_witness :
    (dns_main [(SysEvent.ok ["10.0.0.1"], DohEvent.response fixtureA)]).1 = 1 :=
  (exit_code_iff [(SysEvent.ok ["10.0.0.1"], DohEvent.response fixtureA)]).1.mpr
    ⟨(SysEvent.ok ["10.0.0.1"], DohEvent.response fixtureA),
      List.mem_cons_self _ _, by decide, by decide, by decide⟩

/-- C4: for a parsed body whose `Status` Python-equals 0 and whose `Answer`
is a list of well-formed records (objects with integer type codes and
hashable data values, as the interface documents), `resolve_doh` returns
the set of exactly the data values of records whose type code equals 1 and
which carry a `data` field; records of any other type code and records
missing a `data` field contribute nothing, and no error occurs (no stderr
diagnostic is printed). -/
theorem resolve_doh_extracts_type1 (body : Json) (fs : List (String × Json))
    (s : Json) (l : List Json)
    (hb : body = Json.obj fs)
    (hst : fs.lookup "Status" = some s)
    (hs0 : pyEqInt s 0 = true)
    (hans : fs.lookup "Answer" = some (Json.arr l))
    (hwf : ∀ r ∈ l, wellFormedRecord r = true) :
    (resolve_doh (DohEvent.response body)).2 = DohDiag.quiet ∧
    ∀ x, x ∈ (resolve_doh (DohEvent.response body)).1 ↔
      ∃ r ∈ l, ∃ rf, r = Json.obj rf ∧ rf.lookup "type" = some (Json.num 1) ∧
        ∃ d, rf.lookup "data" = some d ∧ d.toPyVal = some x := by
  subst hb
  have hsafe : ∀ r ∈ l, recordSafe r = true := fun r hr =>
    recordSafe_of_wellFormed r (hwf r hr)
  have hfold := answerFold_of_safe l ∅ hsafe
  have hproc : processBody (Json.obj fs) = (l.foldl addOk ∅, DohDiag.quiet) := by
    simp [processBody, hst, hs0, hans, hfold]
  have hres : resolve_doh (DohEvent.response (Json.obj fs)) =
      (l.foldl addOk ∅, DohDiag.quiet) := hproc
  constructor
  · rw [hres]
  · intro x
    rw [hres]
    simp only
    rw [mem_foldl_addOk]
    simp only [Finset.not_mem_empty, false_or]
    constructor
    · rintro ⟨r, hr, hins⟩
      exact ⟨r, hr, (insData_of_wellFormed r (hwf r hr) x).mp hins⟩
    · rintro ⟨r, hr, hc⟩
      exact ⟨r, hr, (insData_of_wellFormed r (hwf r hr) x).mpr hc⟩

/-- Witness for C4: on the CNAME/A fixture, no error occurs and the A
record's address is in the result (the CNAME record's data is not, as the
full answer set is checked separately by evaluation in other claims). -/
theorem resolve_doh_extracts_type1_witness :
    (resolve_doh (DohEvent.response fixtureCname)).2 = DohDiag.quiet ∧
    PyVal.str "93.184.216.34" ∈ (resolve_doh (DohEvent.response fixtureCname)).1 := by
  have h := resolve_doh_extracts_type1 fixtureCname
    [("Status", Json.num 0),
     ("Answer", Json.arr [
       Json.obj [("type", Json.num 5), ("data", Json.str "alias.example.net.")],
       Json.obj [("type", Json.num 1), ("data", Json.str "93.184.216.34")],
       Json.obj [("type", Json.num 1)]])]
    (Json.num 0)
    [Json.obj [("type", Json.num 5), ("data", Json.str "alias.example.net.")],
     Json.obj [("type", Json.num 1), ("data", Json.str "93.184.216.34")],
     Json.obj [("type", Json.num 1)]]
    rfl rfl rfl rfl (by decide)
  refine ⟨h.1, (h.2 (PyVal.str "93.184.216.34")).mpr ?_⟩
  exact ⟨Json.obj [("type", Json.num 1), ("data", Json.str "93.184.216.34")],
    List.Mem.tail _ (List.Mem.head _),
    [("type", Json.num 1), ("data", Json.str "93.184.216.34")],
    rfl, rfl, Json.str "93.184.216.34", rfl, rfl⟩

/-- C10: for every parsed body whose top-level `Status` field is absent or
does not Python-equal 0 (note Python's `False == 0`, so a boolean `false`
status counts as equal), `resolve_doh` returns the empty set, whatever the
`Answer` field holds. -/
theorem resolve_doh_status_guard (body : Json) (h : statusNotZero body = true) :
    (resolve_doh (DohEvent.response body)).1 = ∅ := by
  cases body with
  | obj fs =>
    simp only [statusNotZero] at h
    simp only [resolve_doh, processBody]
    cases hst : fs.lookup "Status" with
    | none => simp [hst]
    | some s =>
      simp only [hst, Bool.not_eq_eq_eq_not, Bool.not_true] at h
      simp [hst, h]
  | null => rfl
  | bool b => rfl
  | num n => rfl
  | str s => rfl
  | arr l => rfl

/-- Witness for C10: an NXDOMAIN body (`Status = 3`) that carries a
well-formed type-1 record in `Answer` still yields the empty set. -/
theorem resolve_doh_status_guard_witness :
    (resolve_doh (DohEvent.response fixtureNx)).1 = ∅ :=
  resolve_doh_status_guard fixtureNx (by decide)

/-- C8: the result of `resolve_doh` is a deterministic function of the
response; for bodies with `Status` 0 whose `Answer` lists are permutations
of each other (with exception-free records), the extracted address set is
the same; and two records carrying the same data value contribute one
element (set insertion deduplicates). -/
theorem resolve_doh_order_independent :
    (∀ b1 b2 : Json, b1 = b2 →
      resolve_doh (DohEvent.response b1) = resolve_doh (DohEvent.response b2)) ∧
    (∀ (f1 f2 : List (String × Json)) (s1 s2 : Json) (l1 l2 : List Json),
      f1.lookup "Status" = some s1 → pyEqInt s1 0 = true →
      f2.lookup "Status" = some s2 → pyEqInt s2 0 = true →
      f1.lookup "Answer" = some (Json.arr l1) →
      f2.lookup "Answer" = some (Json.arr l2) →
      l1.Perm l2 →
      (∀ r ∈ l1, recordSafe r = true) →
      (resolve_doh (DohEvent.response (Json.obj f1))).1 =
        (resolve_doh (DohEvent.response (Json.obj f2))).1) ∧
    (∀ (r1 r2 : Json) (l : List Json) (acc : Finset PyVal) (v : PyVal),
      insData r1 = some v → insData r2 = some v →
      (answerFold (r1 :: r2 :: l) acc).1 = (answerFold (r2 :: l) acc).1) := by
  refine ⟨?_, ?_, ?_⟩
  · intro b1 b2 h
    rw [h]
  · intro f1 f2 s1 s2 l1 l2 hst1 hs1 hst2 hs2 ha1 ha2 hperm hsafe1
    have hsafe2 : ∀ r ∈ l2, recordSafe r = true := fun r hr =>
      hsafe1 r (hperm.mem_iff.mpr hr)
    have h1 := answerFold_of_safe l1 ∅ hsafe1
    have h2 := answerFold_of_safe l2 ∅ hsafe2
    simp only [resolve_doh]
    simp [processBody, hst1, hs1, ha1, h1, hst2, hs2, ha2, h2]
    exact foldl_addOk_perm hperm ∅
  · intro r1 r2 l acc v h1 h2
    have e1 : addRecord acc r1 = Except.ok (insert v acc) :=
      addRecord_of_insData acc r1 v h1
    have e2 : addRecord (insert v acc) r2 = Except.ok (insert v (insert v acc)) :=
      addRecord_of_insData (insert v acc) r2 v h2
    have e3 : addRecord acc r2 = Except.ok (insert v acc) :=
      addRecord_of_insData acc r2 v h2
    simp only [answerFold, e1, e2, e3, Finset.insert_idem]

/-- Witness for C8: reversing a two-record answer list leaves the extracted
set unchanged. -/
theorem resolve_doh_order_independent_witness :
    (resolve_doh (DohEvent.response (Json.obj [("Status", Json.num 0),
      ("Answer", Json.arr [
        Json.obj [("type", Json.num 1), ("data", Json.str "1.1.1.1")],
        Json.obj [("type", Json.num 1), ("data", Json.str "2.2.2.2")]])]))).1 =
    (resolve_doh (DohEvent.response (Json.obj [("Status", Json.num 0),
      ("Answer", Json.arr [
        Json.obj [("type", Json.num 1), ("data", Json.str "2.2.2.2")],
        Json.obj [("type", Json.num 1), ("data", Json.str "1.1.1.1")]])]))).1 :=
  resolve_doh_order_independent.2.1
    [("Status", Json.num 0),
     ("Answer", Json.arr [
       Json.obj [("type", Json.num 1), ("data", Json.str "1.1.1.1")],
       Json.obj [("type", Json.num 1), ("data", Json.str "2.2.2.2")]])]
    [("Status", Json.num 0),
     ("Answer", Json.arr [
       Json.obj [("type", Json.num 1), ("data", Json.str "2.2.2.2")],
       Json.obj [("type", Json.num 1), ("data", Json.str "1.1.1.1")]])]
    (Json.num 0) (Json.num 0)
    [Json.obj [("type", Json.num 1), ("data", Json.str "1.1.1.1")],
     Json.obj [("type", Json.num 1), ("data", Json.str "2.2.2.2")]]
    [Json.obj [("type", Json.num 1), ("data", Json.str "2.2.2.2")],
     Json.obj [("type", Json.num 1), ("data", Json.str "1.1.1.1")]]
    rfl rfl rfl rfl rfl rfl
    (List.Perm.swap _ _ _)
    (by decide)

/-- Provenance of the extracted addresses: every element of the set
returned for a parsed body comes verbatim from the `data` field of some
record of the `Answer` list selected by the type test, including when the
loop was interrupted by an exception. -/
lemma provenance_aux (body : Json) (x : PyVal)
    (hx : x ∈ (resolve_doh (DohEvent.response body)).1) :
    ∃ fs l, body = Json.obj fs ∧ fs.lookup "Answer" = some (Json.arr l) ∧
      ∃ r ∈ l, insData r = some x := by
  cases body with
  | obj fs =>
    simp only [resolve_doh, processBody] at hx
    cases hst : fs.lookup "Status" with
    | none => simp [hst] at hx
    | some s =>
      cases hps : pyEqInt s 0 with
      | false => simp [hst, hps] at hx
      | true =>
        cases hans : fs.lookup "Answer" with
        | none => simp [hst, hps, hans] at hx
        | some a =>
          cases a with
          | arr l =>
            simp only [hst, hps, hans] at hx
            simp at hx
            rcases mem_answerFold l ∅ x hx with h0 | ⟨r, hr, hins⟩
            · simp at h0
            · exact ⟨fs, l, rfl, hans, r, hr, hins⟩
          | null => simp [hst, hps, hans] at hx
          | bool b => simp [hst, hps, hans] at hx
          | num n => simp [hst, hps, hans] at hx
          | str st => simp [hst, hps, hans] at hx
          | obj o => simp [hst, hps, hans] at hx
  | null => simp [resolve_doh, processBody] at hx
  | bool b => simp [resolve_doh, processBody] at hx
  | num n => simp [resolve_doh, processBody] at hx
  | str s => simp [resolve_doh, processBody] at hx
  | arr l => simp [resolve_doh, processBody] at hx

/-- Characterisation of the contributed element of an answer record, with
no well-formedness assumption. -/
lemma insData_eq_some_iff (r : Json) (x : PyVal) :
    insData r = some x ↔
      ∃ rf, r = Json.obj rf ∧
        (∃ t, rf.lookup "type" = some t ∧ pyEqInt t 1 = true) ∧
        ∃ d, rf.lookup "data" = some d ∧ d.toPyVal = some x := by
  cases r with
  | obj fs =>
    simp only [insData]
    constructor
    · intro hins
      cases htype : fs.lookup "type" with
      | none => simp [htype] at hins
      | some t =>
        cases hps : pyEqInt t 1 with
        | false => simp [htype, hps] at hins
        | true =>
          cases hdata : fs.lookup "data" with
          | none => simp [htype, hps, hdata] at hins
          | some d =>
            simp [htype, hps, hdata] at hins
            exact ⟨fs, rfl, ⟨t, htype, hps⟩, d, hdata, hins⟩
    · rintro ⟨rf, hrf, ⟨t, htype, hps⟩, d, hdata, hv⟩
      have hfs : rf = fs := by
        injection hrf with h2
        exact h2.symm
      subst hfs
      simp [htype, hps, hdata, hv]
  | null => simp [insData]
  | bool b => simp [insData]
  | num n => simp [insData]
  | str s => simp [insData]
  | arr l => simp [insData]

/-- C5 counterexample: on `fixtureMixed` the DoH resolver hits the
unexpected-exception failure mode (`record.get` raises `AttributeError` on
the non-dict second entry, caught by the generic `except Exception`
handler), emits a diagnostic — yet returns the non-empty set accumulated
before the exception, not an empty set as the claim requires for every
failure mode. -/
theorem resolve_doh_partial_on_exception :
    resolve_doh (DohEvent.response fixtureMixed) =
      ({PyVal.str "1.2.3.4"}, DohDiag.excCaught) ∧
    ({PyVal.str "1.2.3.4"} : Finset PyVal) ≠ ∅ := by
  constructor
  · decide
  · decide

/-- C5 amended: neither resolver lets an exception escape; each failure
event of the request/lookup phase (name not found, transport or HTTP
error, timeout, TLS, unparsable JSON, other pre-parse exceptions) yields
the empty set plus a stderr diagnostic.  An unexpected exception caught
during answer extraction also produces a diagnostic but returns the
addresses accumulated before the exception — every element still drawn
from a type-1 record's data field — which can be non-empty. -/
theorem resolver_failure_contract_amended :
    (∀ e : SysEvent, e = SysEvent.gaiError ∨ e = SysEvent.otherError →
      resolve_system e = (∅, true)) ∧
    (∀ e : DohEvent,
      e = DohEvent.requestError ∨ e = DohEvent.jsonError ∨ e = DohEvent.otherError →
      resolve_doh e = (∅, DohDiag.excCaught)) ∧
    (∀ (body : Json) (x : PyVal), x ∈ (resolve_doh (DohEvent.response body)).1 →
      ∃ fs l, body = Json.obj fs ∧ fs.lookup "Answer" = some (Json.arr l) ∧
        ∃ r ∈ l, insData r = some x) := by
  refine ⟨?_, ?_, ?_⟩
  · rintro e (rfl | rfl) <;> rfl
  · rintro e (rfl | rfl | rfl) <;> rfl
  · exact provenance_aux

/-- Witness for C5 amended: the name-not-found failure yields the empty set
and a diagnostic. -/
theorem resolver_failure_contract_amended_witness :
    resolve_system SysEvent.gaiError = (∅, true) :=
  resolver_failure_contract_amended.1 SysEvent.gaiError (Or.inl rfl)

/-- C7 counterexample: the code adds the `data` value of a type-1 record
verbatim with no dotted-quad validation, so a response carrying the string
`hello` as data puts `hello` — not an IPv4 dotted-quad literal — into the
DoH address set. -/
theorem doh_set_not_dotted_quad :
    PyVal.str "hello" ∈ (resolve_doh (DohEvent.response fixtureHello)).1 ∧
    isDottedQuad "hello" = false := by
  constructor
  · decide
  · decide

/-- C7 amended: every element of a DoH address set is the hashable data
value of some type-1 record of the response's `Answer` list, taken
verbatim; hence the elements are dotted-quad string literals whenever the
response's record data values are (the code itself validates nothing); and
every element of a system address set is one of the address strings
returned by the platform's IPv4-restricted lookup. -/
theorem address_set_provenance :
    (∀ (body : Json) (x : PyVal), x ∈ (resolve_doh (DohEvent.response body)).1 →
      ∀ fs l, body = Json.obj fs → fs.lookup "Answer" = some (Json.arr l) →
        ∃ r ∈ l, ∃ rf, r = Json.obj rf ∧
          (∃ t, rf.lookup "type" = some t ∧ pyEqInt t 1 = true) ∧
          ∃ d, rf.lookup "data" = some d ∧ d.toPyVal = some x) ∧
    (∀ (body : Json) (fs : List (String × Json)) (l : List Json) (x : PyVal),
      body = Json.obj fs → fs.lookup "Answer" = some (Json.arr l) →
      (∀ r ∈ l, ∀ rf, r = Json.obj rf → ∀ d, rf.lookup "data" = some d →
        ∃ st, d = Json.str st ∧ isDottedQuad st = true) →
      x ∈ (resolve_doh (DohEvent.response body)).1 →
      ∃ st, x = PyVal.str st ∧ isDottedQuad st = true) ∧
    (∀ (addrs : List String) (a : String),
      a ∈ (resolve_system (SysEvent.ok addrs)).1 → a ∈ addrs) := by
  refine ⟨?_, ?_, ?_⟩
  · intro body x hx fs l hb hans
    obtain ⟨fs2, l2, hb2, hans2, r, hr, hins⟩ := provenance_aux body x hx
    have hfs : fs = fs2 := by
      rw [hb] at hb2
      injection hb2
    subst hfs
    have hl : l = l2 := by
      rw [hans] at hans2
      injection hans2 with h2
      injection h2
    subst hl
    obtain ⟨rf, hrf, htyp, d, hdata, hv⟩ := (insData_eq_some_iff r x).mp hins
    exact ⟨r, hr, rf, hrf, htyp, d, hdata, hv⟩
  · intro body fs l x hb hans hdq hx
    obtain ⟨fs2, l2, hb2, hans2, r, hr, hins⟩ := provenance_aux body x hx
    have hfs : fs = fs2 := by
      rw [hb] at hb2
      injection hb2
    subst hfs
    have hl : l = l2 := by
      rw [hans] at hans2
      injection hans2 with h2
      injection h2
    subst hl
    obtain ⟨rf, hrf, _, d, hdata, hv⟩ := (insData_eq_some_iff r x).mp hins
    obtain ⟨st, hst, hq⟩ := hdq r hr rf hrf d hdata
    subst hst
    simp only [Json.toPyVal] at hv
    exact ⟨st, (Option.some.inj hv).symm, hq⟩
  · intro addrs a ha
    simp only [resolve_system] at ha
    rcases (mem_foldl_insert addrs ∅ a).mp ha with h0 | h1
    · simp at h0
    · exact h1

/-- Witness for C7 amended: an address produced by the system resolver is
among the platform-returned strings. -/
theorem address_set_provenance_witness :
    "93.184.216.34" ∈ (resolve_system (SysEvent.ok ["93.184.216.34"])).1 ∧
    "93.184.216.34" ∈ ["93.184.216.34"] :=
  ⟨by decide,
   address_set_provenance.2.2 ["93.184.216.34"] "93.184.216.34" (by decide)⟩

end DnsDetector
